import Mathlib

/-!
# TopDownTemplate: player input flags, movement request and bullet lifecycle

A shallow embedding of `Code/Components/Player.h`, `Code/Components/Player.cpp`
and `Code/Components/Bullet.h`.

Conventions of the embedding:

* `uint8` flag sets (`CEnumFlags<EInputFlag>`) are natural numbers below `256`;
  the only operation that can leave that range, the complement `~flags`, is
  reduced to eight bits explicitly (`uint8Not`).
* `float` values (frame times, the bullet timer, velocities) are rationals.
  The bullet timer's subtraction is rounded to IEEE 754 binary32, to nearest
  with ties to even (`float32`); the velocity arithmetic of the player is exact.
* Calls into engine services are made explicit: a value read from the engine
  (`IsOnGround`, the frame time) is an argument, a call made to the engine
  (`AddVelocity`, `RemoveEntity`) is part of the result.
-/

namespace TopDownTemplate

/-! ## Player.h -/

/-- The `EInputFlagType` enum of `CPlayerComponent`: how a binding drives its flags. -/
inductive EInputFlagType where
  | Hold
  | Toggle
  deriving DecidableEq, Repr

namespace EInputFlag

/-- Enumerator `MoveLeft = 1 << 0`. -/
def MoveLeft : Nat := 1 <<< 0

/-- Enumerator `MoveRight = 1 << 1`. -/
def MoveRight : Nat := 1 <<< 1

/-- Enumerator `MoveForward = 1 << 2`. -/
def MoveForward : Nat := 1 <<< 2

/-- Enumerator `MoveBack = 1 << 3`. -/
def MoveBack : Nat := 1 <<< 3

end EInputFlag

/-- Modelled from the spec: the engine enumerator `eAAM_OnPress` of
`EActionActivationMode`, declared in an engine header that is not part of the
sources. The spec names Press and Release as two distinct activation modes next
to others (Held/Repeat); the value is the engine's first mode bit. -/
def eAAM_OnPress : Int := 1

/-- Modelled from the spec: the engine enumerator `eAAM_OnRelease` of
`EActionActivationMode` (see `eAAM_OnPress`); the engine's second mode bit. -/
def eAAM_OnRelease : Int := 2

/-- Modelled from the spec: the engine enumerator `eAAM_OnHold` of
`EActionActivationMode` (the spec's "Held/Repeat" mode); the engine's third
mode bit. It is used only as an example of a mode that is neither Press nor
Release. -/
def eAAM_OnHold : Int := 4

/-- The complement `~flags` of a `CEnumFlags` over `uint8`: the bitwise complement
stored back into eight bits. -/
def uint8Not (x : Nat) : Nat := 255 - x % 256

/-! ## Player.cpp -/

/-- The method `CPlayerComponent::HandleInputFlagChange`. The first argument is
the value of `m_inputFlags` before the call, the result its value after the call.
In the source `type` defaults to `EInputFlagType::Hold`. -/
def HandleInputFlagChange (m_inputFlags : Nat) (flags : Nat) (activationMode : Int)
    (type : EInputFlagType) : Nat :=
  match type with
  | EInputFlagType.Hold =>
    if activationMode = eAAM_OnRelease then
      m_inputFlags &&& uint8Not flags
    else
      m_inputFlags ||| flags
  | EInputFlagType.Toggle =>
    if activationMode = eAAM_OnRelease then
      -- Toggle the bit(s)
      m_inputFlags ^^^ flags
    else
      m_inputFlags

/-- The engine's `Vec3`: three `float` components. -/
structure Vec3 where
  x : ℚ
  y : ℚ
  z : ℚ
  deriving DecidableEq, Repr

/-- The engine's `ZERO` initialiser for a `Vec3`. -/
def Vec3.ZERO : Vec3 := { x := 0, y := 0, z := 0 }

/-- The local constant `moveSpeed = 20.5f` of `UpdateMovementRequest`. -/
def moveSpeed : ℚ := 41 / 2

/-- The method `CPlayerComponent::UpdateMovementRequest`. `IsOnGround` is what
`m_pCharacterController->IsOnGround()` returns during the call, `m_inputFlags` the
current intent set; the result lists the arguments of the calls made to
`m_pCharacterController->AddVelocity`, in order. -/
def UpdateMovementRequest (IsOnGround : Bool) (m_inputFlags : Nat) (frameTime : ℚ) :
    List Vec3 :=
  -- Don't handle input if we are in air
  if !IsOnGround then
    []
  else
    let velocity : Vec3 := Vec3.ZERO
    let velocity : Vec3 :=
      if m_inputFlags &&& EInputFlag.MoveLeft ≠ 0 then
        { velocity with x := velocity.x - moveSpeed * frameTime }
      else velocity
    let velocity : Vec3 :=
      if m_inputFlags &&& EInputFlag.MoveRight ≠ 0 then
        { velocity with x := velocity.x + moveSpeed * frameTime }
      else velocity
    let velocity : Vec3 :=
      if m_inputFlags &&& EInputFlag.MoveForward ≠ 0 then
        { velocity with y := velocity.y + moveSpeed * frameTime }
      else velocity
    let velocity : Vec3 :=
      if m_inputFlags &&& EInputFlag.MoveBack ≠ 0 then
        { velocity with y := velocity.y - moveSpeed * frameTime }
      else velocity
    [velocity]

/-- The intent set holding exactly the chosen ones of the four movement flags. -/
def intentSet (left right forward back : Bool) : Nat :=
  (if left then EInputFlag.MoveLeft else 0) |||
  (if right then EInputFlag.MoveRight else 0) |||
  (if forward then EInputFlag.MoveForward else 0) |||
  (if back then EInputFlag.MoveBack else 0)

/-! ## Bullet.h -/

/-- The integer nearest to `y`, the even one of the two when `y` lies halfway. -/
def roundHalfEven (y : ℚ) : ℤ :=
  if y - ⌊y⌋ < 1 / 2 then ⌊y⌋
  else if 1 / 2 < y - ⌊y⌋ then ⌊y⌋ + 1
  else if ⌊y⌋ % 2 = 0 then ⌊y⌋
  else ⌊y⌋ + 1

/-- The C++ `float` (IEEE 754 binary32) that an arithmetic operation with exact
result `x` delivers, rounding to nearest with ties to even: `x` is rounded to a
multiple of `2 ^ (e - 23)`, where `2 ^ e ≤ |x| < 2 ^ (e + 1)` and `e` is at least
`-126` (below that the values are subnormal). When the rounded magnitude reaches
`2 ^ 128` the operation overflows to an infinity; `x` itself then stands for the
infinity of its sign. -/
def float32 (x : ℚ) : ℚ :=
  if x = 0 then 0
  else
    let e : ℤ := max (Int.log 2 |x|) (-126)
    let q : ℚ := 2 ^ (e - 23)
    let r : ℚ := roundHalfEven (x / q) * q
    if |r| < 2 ^ (128 : ℤ) then r else x

/-- Modelled from the spec: the engine macro `CLAMP(X, mn, mx)`, defined in an
engine header that is not part of the sources. The spec says the timer is
"clamped to [-1, 1]", the source comment "We clamp the max value to be 1 and
minimum of -1": values below `mn` become `mn`, values not below `mx` become `mx`,
the others are kept. -/
def CLAMP (X mn mx : ℚ) : ℚ :=
  if X < mn then mn else if X < mx then X else mx

/-- An event delivered to `CBulletComponent::ProcessEvent`, as far as the method
looks at it: `event.event` is `ENTITY_EVENT_COLLISION`, `Cry::Entity::EEvent::Update`
or anything else. An `Update` carries what `gEnv->pTimer->GetFrameTime()` returns
while it is processed (the only branch that reads it). -/
inductive SEntityEvent where
  | COLLISION
  | Update (frameTime : ℚ)
  | Other
  deriving DecidableEq, Repr

/-- The state of a `CBulletComponent`: the member `m_timer`, initialised to `5`. -/
structure CBulletComponent where
  m_timer : ℚ := 5
  deriving DecidableEq, Repr

/-- The method `CBulletComponent::ProcessEvent`. The result is the component
after the call and whether the call made a
`gEnv->pEntitySystem->RemoveEntity(GetEntityId())` request. The `float`
subtraction `m_timer - frameTime` is rounded (`float32`). -/
def CBulletComponent.ProcessEvent (self : CBulletComponent) (event : SEntityEvent) :
    CBulletComponent × Bool :=
  -- this event is triggered when collision occurs.
  let removeEntity : Bool :=
    if event = SEntityEvent.COLLISION then
      if self.m_timer < 0 then true else false
    else false
  -- this event is triggered on every update call.
  let m_timer : ℚ :=
    match event with
    | SEntityEvent.Update frameTime => CLAMP (float32 (self.m_timer - frameTime)) (-1) 1
    | _ => self.m_timer
  ({ m_timer := m_timer }, removeEntity)

/-- The component after a sequence of events has been delivered to it, one
`ProcessEvent` call each, in order. -/
def CBulletComponent.deliver (self : CBulletComponent) : List SEntityEvent → CBulletComponent
  | [] => self
  | event :: rest => CBulletComponent.deliver (self.ProcessEvent event).1 rest

/-- Whether any `ProcessEvent` call of a delivered sequence requested removal. -/
def CBulletComponent.removalRequested (self : CBulletComponent) : List SEntityEvent → Bool
  | [] => false
  | event :: rest =>
    (self.ProcessEvent event).2 ||
      CBulletComponent.removalRequested (self.ProcessEvent event).1 rest

/-- A newly constructed bullet component: `m_timer` has its initialiser `5`. -/
def CBulletComponent.fresh : CBulletComponent := {}

/-! ## Player.cpp: cursor, orientation and shooting -/

/-- Componentwise difference of two `Vec3` (`operator-`). -/
def Vec3.sub (a b : Vec3) : Vec3 := { x := a.x - b.x, y := a.y - b.y, z := a.z - b.z }

/-- A `Vec3` scaled by a `float` (`operator*`). -/
def Vec3.smul (a : Vec3) (k : ℚ) : Vec3 := { x := a.x * k, y := a.y * k, z := a.z * k }

/-- The engine's `Quat`: a vector part and a scalar part. -/
structure Quat where
  v : Vec3
  w : ℚ
  deriving DecidableEq, Repr

/-- The engine's `IDENTITY` initialiser for a `Quat`. -/
def Quat.IDENTITY : Quat := { v := Vec3.ZERO, w := 1 }

/-- The engine's `Ang3`: yaw, pitch and roll in `x`, `y`, `z`. -/
structure Ang3 where
  x : ℚ
  y : ℚ
  z : ℚ
  deriving DecidableEq, Repr

/-- The engine's `Matrix33`, by rows. -/
structure Matrix33 where
  row0 : Vec3
  row1 : Vec3
  row2 : Vec3
  deriving DecidableEq, Repr

/-- What the component reads and writes of an `IEntity` that has no parent (so its
world and local transforms agree): position, rotation and scale. -/
structure IEntity where
  pos : Vec3
  rot : Quat
  scale : Vec3
  deriving DecidableEq, Repr

/-- The call `IEntity::SetPosRotScale(pos, rot, scale)`. -/
def IEntity.SetPosRotScale (_self : IEntity) (pos : Vec3) (rot : Quat) (scale : Vec3) :
    IEntity :=
  { pos := pos, rot := rot, scale := scale }

/-- The call `IEntity::SetRotation(rot)`. -/
def IEntity.SetRotation (self : IEntity) (rot : Quat) : IEntity :=
  { self with rot := rot }

/-- The engine services `UpdateCursor` and `UpdateAnimation` call, taken as
parameters: none of them is defined in the sources.
`RayWorldIntersection origin dir` is `some hit.pt` when the engine call returns a
non-zero hit count and `none` when it returns zero. -/
structure Engine where
  /-- The x coordinate `gEnv->pHardwareMouse->GetHardwareMouseClientPosition` writes. -/
  mouseX : ℚ
  /-- The y coordinate `gEnv->pHardwareMouse->GetHardwareMouseClientPosition` writes. -/
  mouseY : ℚ
  /-- The value of `gEnv->pRenderer->GetHeight()`. -/
  GetHeight : ℚ
  /-- The point `gEnv->pRenderer->UnProjectFromScreen(sx, sy, sz, ...)` writes. -/
  UnProjectFromScreen : ℚ → ℚ → ℚ → Vec3
  /-- The value of `gEnv->p3DEngine->GetMaxViewDistance()`. -/
  GetMaxViewDistance : ℚ
  /-- The call `gEnv->pPhysicalWorld->RayWorldIntersection(origin, dir, ...)`. -/
  RayWorldIntersection : Vec3 → Vec3 → Option Vec3
  /-- The method `Vec3::Normalize`. -/
  Normalize : Vec3 → Vec3
  /-- The function `Quat::CreateRotationVDir`. -/
  CreateRotationVDir : Vec3 → Quat
  /-- The conversion `Matrix33(Quat)`. -/
  toMatrix33 : Quat → Matrix33
  /-- The function `CCamera::CreateAnglesYPR`. -/
  CreateAnglesYPR : Matrix33 → Ang3
  /-- The function `CCamera::CreateOrientationYPR`. -/
  CreateOrientationYPR : Ang3 → Matrix33
  /-- The conversion `Quat(Matrix33)`. -/
  toQuat : Matrix33 → Quat

/-- The method `CPlayerComponent::UpdateCursor`. The arguments after the engine
are `m_cursorPositionInWorld` and `m_pCursorEntity` (`none` for `nullptr`) before
the call, the result holds both after the call. -/
def UpdateCursor (gEnv : Engine) (_m_cursorPositionInWorld : Vec3)
    (m_pCursorEntity : Option IEntity) : Vec3 × Option IEntity :=
  let mouseX := gEnv.mouseX
  -- Invert mouse Y
  let mouseY := gEnv.GetHeight - gEnv.mouseY
  let vPos0 := gEnv.UnProjectFromScreen mouseX mouseY 0
  let vPos1 := gEnv.UnProjectFromScreen mouseX mouseY 1
  let vDir := gEnv.Normalize (vPos1.sub vPos0)
  match gEnv.RayWorldIntersection vPos0 (vDir.smul gEnv.GetMaxViewDistance) with
  | some pt =>
    (pt,
      match m_pCursorEntity with
      | some cursor => some (cursor.SetPosRotScale pt Quat.IDENTITY cursor.scale)
      | none => none)
  | none => (Vec3.ZERO, m_pCursorEntity)

/-- The outcome of the ray cast `UpdateCursor` sets up from the pointer position:
the hit point, or `none` when the ray hits nothing. -/
def cursorRayHit (gEnv : Engine) : Option Vec3 :=
  let mouseY := gEnv.GetHeight - gEnv.mouseY
  let vPos0 := gEnv.UnProjectFromScreen gEnv.mouseX mouseY 0
  let vPos1 := gEnv.UnProjectFromScreen gEnv.mouseX mouseY 1
  gEnv.RayWorldIntersection vPos0
    ((gEnv.Normalize (vPos1.sub vPos0)).smul gEnv.GetMaxViewDistance)

/-- The rotation `UpdateAnimation` computes from the cursor and actor positions:
the look direction, reduced to its yaw. -/
def yawRotation (gEnv : Engine) (cursorPos actorPos : Vec3) : Quat :=
  let dir := cursorPos.sub actorPos
  let dir := gEnv.Normalize dir
  let newRotation := gEnv.CreateRotationVDir dir
  let ypr := gEnv.CreateAnglesYPR (gEnv.toMatrix33 newRotation)
  -- We only want to affect Z-axis rotation, zero pitch and roll
  let ypr : Ang3 := { ypr with y := 0 }
  let ypr : Ang3 := { ypr with z := 0 }
  gEnv.toQuat (gEnv.CreateOrientationYPR ypr)

/-- The method `CPlayerComponent::UpdateAnimation`. `IsWalking` is what
`m_pCharacterController->IsWalking()` returns during the call; the result is the
actor entity `m_pEntity` after the call and the values passed to
`m_pAnimationComponent->SetTagWithId(m_walkTagId, ...)`, in order. -/
def UpdateAnimation (gEnv : Engine) (IsWalking : Bool) (m_pCursorEntity : Option IEntity)
    (m_pEntity : IEntity) : IEntity × List Bool :=
  -- Update the Mannequin tags
  let tags := [true]
  match m_pCursorEntity with
  | none => (m_pEntity, tags)
  | some cursor =>
    let newRotation := yawRotation gEnv cursor.pos m_pEntity.pos
    if IsWalking then
      (m_pEntity.SetPosRotScale m_pEntity.pos newRotation { x := 1, y := 1, z := 1 }, tags)
    else
      (m_pEntity.SetRotation newRotation, tags)

/-- The engine's `QuatTS`: rotation, translation and uniform scale. -/
structure QuatTS where
  q : Quat
  t : Vec3
  s : ℚ
  deriving DecidableEq, Repr

/-- What the shoot callback reads of an `IAttachment`: `GetAttWorldAbsolute()`. -/
structure IAttachment where
  GetAttWorldAbsolute : QuatTS
  deriving DecidableEq, Repr

/-- What the shoot callback reads of an `ICharacterInstance`: the lookup
`GetIAttachmentManager()->GetInterfaceByName(name)`, `none` for `nullptr`. -/
structure ICharacterInstance where
  GetInterfaceByName : String → Option IAttachment

/-- The fields of `SEntitySpawnParams` the shoot callback sets besides the entity
class (always the default class). -/
structure SEntitySpawnParams where
  vPosition : Vec3
  qRotation : Quat
  vScale : Vec3
  deriving DecidableEq, Repr

/-- The local constant `bulletScale = 0.05f` of the shoot callback. -/
def bulletScale : ℚ := 1 / 20

/-- The callback registered for the "shoot" action in
`CPlayerComponent::InitializePlayer`. `GetCharacter` is what
`m_pAnimationComponent->GetCharacter()` returns (`none` for `nullptr`),
`SpawnEntity` tells whether `gEnv->pEntitySystem->SpawnEntity` returns an entity.
The result lists the `SpawnEntity` requests made and tells whether a
`CBulletComponent` was created on the spawned entity. -/
def shootAction (activationMode : Int) (GetCharacter : Option ICharacterInstance)
    (SpawnEntity : SEntitySpawnParams → Bool) : List SEntitySpawnParams × Bool :=
  -- Only fire on press, not release
  if activationMode = eAAM_OnPress then
    match GetCharacter with
    | some pCharacter =>
      match pCharacter.GetInterfaceByName "barrel_out" with
      | some pBarrelOutAttachment =>
        let bulletOrigin := pBarrelOutAttachment.GetAttWorldAbsolute
        let spawnParams : SEntitySpawnParams :=
          { vPosition := bulletOrigin.t,
            qRotation := bulletOrigin.q,
            vScale := { x := bulletScale, y := bulletScale, z := bulletScale } }
        ([spawnParams], SpawnEntity spawnParams)
      | none => ([], false)
    | none => ([], false)
  else ([], false)

/-! ## Helper lemmas on eight-bit flag sets -/

theorem testBit_eq_false_of_lt_256 {x : Nat} (hx : x < 256) {i : Nat} (hi : 8 ≤ i) :
    x.testBit i = false := by
  apply Nat.testBit_lt_two_pow
  calc x < 2 ^ 8 := by simpa using hx
    _ ≤ 2 ^ i := Nat.pow_le_pow_right (by decide) hi

theorem testBit_uint8Not (x i : Nat) :
    (uint8Not x).testBit i = (decide (i < 8) && !x.testBit i) := by
  have h : x % 256 < 2 ^ 8 := by
    have := Nat.mod_lt x (show 0 < 256 by decide)
    simpa using this
  have e : uint8Not x = 2 ^ 8 - (x % 256 + 1) := by
    unfold uint8Not
    omega
  rw [e, Nat.testBit_two_pow_sub_succ h]
  by_cases hi : i < 8
  · have : (x % 2 ^ 8).testBit i = x.testBit i := by
      rw [Nat.testBit_mod_two_pow]
      simp [hi]
    have e2 : x % 256 = x % 2 ^ 8 := by norm_num
    rw [e2, this]
  · simp [hi]

theorem uint8Not_lt (x : Nat) : uint8Not x < 256 := by
  unfold uint8Not
  omega

/-! ## Helper lemmas on the movement flags -/

theorem intentSet_and_MoveLeft (l r f b : Bool) :
    intentSet l r f b &&& EInputFlag.MoveLeft ≠ 0 ↔ l = true := by
  cases l <;> cases r <;> cases f <;> cases b <;> decide

theorem intentSet_and_MoveRight (l r f b : Bool) :
    intentSet l r f b &&& EInputFlag.MoveRight ≠ 0 ↔ r = true := by
  cases l <;> cases r <;> cases f <;> cases b <;> decide

theorem intentSet_and_MoveForward (l r f b : Bool) :
    intentSet l r f b &&& EInputFlag.MoveForward ≠ 0 ↔ f = true := by
  cases l <;> cases r <;> cases f <;> cases b <;> decide

theorem intentSet_and_MoveBack (l r f b : Bool) :
    intentSet l r f b &&& EInputFlag.MoveBack ≠ 0 ↔ b = true := by
  cases l <;> cases r <;> cases f <;> cases b <;> decide

/-! ## Helper lemmas on the bullet timer -/

theorem CLAMP_bounds (x : ℚ) : -1 ≤ CLAMP x (-1) 1 ∧ CLAMP x (-1) 1 ≤ 1 := by
  unfold CLAMP
  split_ifs with h1 h2
  · constructor <;> norm_num
  · constructor <;> linarith
  · constructor <;> norm_num

theorem ProcessEvent_Update_timer (b : CBulletComponent) (ft : ℚ) :
    (b.ProcessEvent (SEntityEvent.Update ft)).1.m_timer
      = CLAMP (float32 (b.m_timer - ft)) (-1) 1 := rfl

theorem ProcessEvent_timer_bounds (b : CBulletComponent) (e : SEntityEvent)
    (h : -1 ≤ b.m_timer ∧ b.m_timer ≤ 1) :
    -1 ≤ (b.ProcessEvent e).1.m_timer ∧ (b.ProcessEvent e).1.m_timer ≤ 1 := by
  cases e with
  | COLLISION => exact h
  | Update ft => exact CLAMP_bounds _
  | Other => exact h

theorem deliver_timer_bounds (evs : List SEntityEvent) (b : CBulletComponent)
    (h : -1 ≤ b.m_timer ∧ b.m_timer ≤ 1) :
    -1 ≤ (b.deliver evs).m_timer ∧ (b.deliver evs).m_timer ≤ 1 := by
  induction evs generalizing b with
  | nil => exact h
  | cons e rest ih => exact ih _ (ProcessEvent_timer_bounds b e h)

theorem ProcessEvent_removal_iff (b : CBulletComponent) (e : SEntityEvent) :
    (b.ProcessEvent e).2 = true ↔ (e = SEntityEvent.COLLISION ∧ b.m_timer < 0) := by
  cases e with
  | COLLISION => simp [CBulletComponent.ProcessEvent]
  | Update ft => simp [CBulletComponent.ProcessEvent]
  | Other => simp [CBulletComponent.ProcessEvent]

theorem removalRequested_iff (evs : List SEntityEvent) (b : CBulletComponent) :
    b.removalRequested evs = true ↔
      ∃ pre post, evs = pre ++ SEntityEvent.COLLISION :: post ∧ (b.deliver pre).m_timer < 0 := by
  induction evs generalizing b with
  | nil => simp [CBulletComponent.removalRequested]
  | cons e rest ih =>
    simp only [CBulletComponent.removalRequested, Bool.or_eq_true]
    constructor
    · rintro (h | h)
      · obtain ⟨he, ht⟩ := (ProcessEvent_removal_iff b e).1 h
        exact ⟨[], rest, by simp [he], ht⟩
      · obtain ⟨pre, post, hre, ht⟩ := (ih _).1 h
        exact ⟨e :: pre, post, by simp [hre], ht⟩
    · rintro ⟨pre, post, hre, ht⟩
      cases pre with
      | nil =>
        left
        simp only [List.nil_append, List.cons.injEq] at hre
        exact (ProcessEvent_removal_iff b e).2 ⟨hre.1, ht⟩
      | cons p pre =>
        right
        simp only [List.cons_append, List.cons.injEq] at hre
        refine (ih _).2 ⟨pre, post, hre.2, ?_⟩
        rw [hre.1]
        exact ht

theorem bullet_no_removal_without_collision (b : CBulletComponent)
    (evs : List SEntityEvent) (hevs : SEntityEvent.COLLISION ∉ evs) :
    b.removalRequested evs = false := by
  cases hr : b.removalRequested evs with
  | false => rfl
  | true =>
    obtain ⟨p, q, hpq, _⟩ := (removalRequested_iff evs b).1 hr
    exact absurd (by simp [hpq]) hevs

theorem roundHalfEven_intCast (n : ℤ) : roundHalfEven (n : ℚ) = n := by
  unfold roundHalfEven
  simp

theorem log_two_abs_eq (x : ℚ) (k : ℤ) (h1 : (2 : ℚ) ^ k ≤ |x|)
    (h2 : |x| < (2 : ℚ) ^ (k + 1)) : Int.log 2 |x| = k := by
  have hpos : 0 < |x| := lt_of_lt_of_le (zpow_pos (by norm_num) k) h1
  have hle : k ≤ Int.log 2 |x| := by
    rw [← Int.zpow_le_iff_le_log (by norm_num) hpos]
    simpa using h1
  have hlt : Int.log 2 |x| < k + 1 := by
    rw [← Int.lt_zpow_iff_log_lt (by norm_num) hpos]
    simpa using h2
  omega

theorem float32_eq_of_binade (x : ℚ) (k n : ℤ) (hk : -126 ≤ k)
    (h1 : (2 : ℚ) ^ k ≤ |x|) (h2 : |x| < (2 : ℚ) ^ (k + 1))
    (hn : roundHalfEven (x / 2 ^ (k - 23)) = n)
    (hfin : |(n : ℚ) * 2 ^ (k - 23)| < 2 ^ (128 : ℤ)) :
    float32 x = n * 2 ^ (k - 23) := by
  have hpos : 0 < |x| := lt_of_lt_of_le (zpow_pos (by norm_num) k) h1
  have hx : x ≠ 0 := abs_pos.1 hpos
  have hlog := log_two_abs_eq x k h1 h2
  unfold float32
  simp only [hx, if_false, hlog, max_eq_left hk, hn, hfin, if_true]

theorem float32_eq_self (x : ℚ) (k n : ℤ) (hk : -126 ≤ k)
    (h1 : (2 : ℚ) ^ k ≤ |x|) (h2 : |x| < (2 : ℚ) ^ (k + 1))
    (hx : x = n * 2 ^ (k - 23)) (hfin : |x| < 2 ^ (128 : ℤ)) :
    float32 x = x := by
  have hq : (2 : ℚ) ^ (k - 23) ≠ 0 := zpow_ne_zero _ (by norm_num)
  have hn : roundHalfEven (x / 2 ^ (k - 23)) = n := by
    rw [hx, mul_div_assoc, div_self hq, mul_one]
    exact roundHalfEven_intCast n
  rw [float32_eq_of_binade x k n hk h1 h2 hn (by rw [← hx]; exact hfin)]
  exact hx.symm

theorem CLAMP_of_mem (x : ℚ) (h1 : -1 ≤ x) (h2 : x < 1) : CLAMP x (-1) 1 = x := by
  unfold CLAMP
  rw [if_neg (not_lt.2 h1), if_pos h2]

theorem CLAMP_of_ge (x : ℚ) (h : 1 ≤ x) : CLAMP x (-1) 1 = 1 := by
  unfold CLAMP
  rw [if_neg (not_lt.2 (le_trans (by norm_num) h)), if_neg (not_lt.2 h)]

theorem float32_five_sub_half : float32 ((5 : ℚ) - 1 / 2) = 9 / 2 := by
  rw [show (5 : ℚ) - 1 / 2 = 9 / 2 by norm_num]
  exact float32_eq_self _ 2 9437184 (by norm_num) (by norm_num [abs_of_pos])
    (by norm_num [abs_of_pos]) (by norm_num) (by norm_num [abs_of_pos])

theorem float32_one_sub_half : float32 ((1 : ℚ) - 1 / 2) = 1 / 2 := by
  rw [show (1 : ℚ) - 1 / 2 = 1 / 2 by norm_num]
  exact float32_eq_self _ (-1) 8388608 (by norm_num) (by norm_num [abs_of_pos])
    (by norm_num [abs_of_pos]) (by norm_num) (by norm_num [abs_of_pos])

theorem float32_half_sub_half : float32 ((1 / 2 : ℚ) - 1 / 2) = 0 := by
  rw [sub_self]
  simp [float32]

theorem float32_zero_sub_half : float32 ((0 : ℚ) - 1 / 2) = -1 / 2 := by
  rw [show (0 : ℚ) - 1 / 2 = -1 / 2 by norm_num]
  exact float32_eq_self _ (-1) (-8388608) (by norm_num) (by norm_num [abs_of_neg])
    (by norm_num [abs_of_neg]) (by norm_num) (by norm_num [abs_of_neg])

/-- C1: under the Hold policy, for eight-bit sets `I` and `F` and any activation
mode `m`, `HandleInputFlagChange` yields an eight-bit set whose bit `i` is
`I`'s bit with `F`'s bits cleared when `m` is Release, and `I`'s bit with `F`'s
bits set for every other mode; bits outside `F` are unchanged in both cases. -/
theorem HandleInputFlagChange_hold (I F : Nat) (m : Int) (hI : I < 256) (hF : F < 256) :
    HandleInputFlagChange I F m EInputFlagType.Hold < 256 ∧
    (∀ i, (HandleInputFlagChange I F m EInputFlagType.Hold).testBit i =
      if m = eAAM_OnRelease then (I.testBit i && !F.testBit i)
      else (I.testBit i || F.testBit i)) ∧
    (∀ i, F.testBit i = false →
      (HandleInputFlagChange I F m EInputFlagType.Hold).testBit i = I.testBit i) := by
  have hbits : ∀ i, (HandleInputFlagChange I F m EInputFlagType.Hold).testBit i =
      if m = eAAM_OnRelease then (I.testBit i && !F.testBit i)
      else (I.testBit i || F.testBit i) := by
    intro i
    unfold HandleInputFlagChange
    by_cases hm : m = eAAM_OnRelease
    · simp only [hm, if_true, Nat.testBit_and, testBit_uint8Not]
      by_cases hi : i < 8
      · simp [hi]
      · have : I.testBit i = false := testBit_eq_false_of_lt_256 hI (by omega)
        simp [this]
    · simp only [hm, if_false, Nat.testBit_or]
  refine ⟨?_, hbits, ?_⟩
  · unfold HandleInputFlagChange
    by_cases hm : m = eAAM_OnRelease
    · simp only [hm, if_true]
      exact lt_of_le_of_lt Nat.and_le_left hI
    · simp only [hm, if_false]
      have : I ||| F < 2 ^ 8 := Nat.or_lt_two_pow (by simpa using hI) (by simpa using hF)
      simpa using this
  · intro i hFi
    rw [hbits i, hFi]
    by_cases hm : m = eAAM_OnRelease <;> simp [hm]

/-- Witness for C1: Release of `MoveLeft` out of `{MoveLeft, MoveForward}`. -/
theorem HandleInputFlagChange_hold_witness :
    HandleInputFlagChange 5 1 eAAM_OnRelease EInputFlagType.Hold < 256 ∧
    (∀ i, (HandleInputFlagChange 5 1 eAAM_OnRelease EInputFlagType.Hold).testBit i =
      if eAAM_OnRelease = eAAM_OnRelease then (Nat.testBit 5 i && !Nat.testBit 1 i)
      else (Nat.testBit 5 i || Nat.testBit 1 i)) ∧
    (∀ i, Nat.testBit 1 i = false →
      (HandleInputFlagChange 5 1 eAAM_OnRelease EInputFlagType.Hold).testBit i
        = Nat.testBit 5 i) :=
  HandleInputFlagChange_hold 5 1 eAAM_OnRelease (by decide) (by decide)

/-- C2: under the Toggle policy, `HandleInputFlagChange` yields `I xor F` when the
mode is Release and `I` itself for every other mode (bit by bit: each bit of `F`
is flipped on Release, none otherwise); two consecutive Press events on a Toggle
flag leave the intent set unchanged. -/
theorem HandleInputFlagChange_toggle (I F : Nat) (m : Int) :
    HandleInputFlagChange I F m EInputFlagType.Toggle
      = (if m = eAAM_OnRelease then I ^^^ F else I) ∧
    (∀ i, (HandleInputFlagChange I F m EInputFlagType.Toggle).testBit i =
      if m = eAAM_OnRelease then Bool.xor (I.testBit i) (F.testBit i) else I.testBit i) ∧
    HandleInputFlagChange (HandleInputFlagChange I F eAAM_OnPress EInputFlagType.Toggle)
      F eAAM_OnPress EInputFlagType.Toggle = I := by
  have hpr : eAAM_OnPress ≠ eAAM_OnRelease := by decide
  refine ⟨?_, ?_, ?_⟩
  · unfold HandleInputFlagChange
    rfl
  · intro i
    unfold HandleInputFlagChange
    by_cases hm : m = eAAM_OnRelease
    · simp only [hm, if_true, Nat.testBit_xor]
    · simp only [hm, if_false]
  · unfold HandleInputFlagChange
    simp only [hpr, if_false]

/-- C3: for each of the 16 combinations of the four movement flags and every frame
time `t`, a grounded `UpdateMovementRequest` requests the velocity `(x, y, 0)` with
`s = 20.5 * t`, `x = (s if MoveRight) - (s if MoveLeft)` and
`y = (s if MoveForward) - (s if MoveBack)`; opposing flags cancel on their axis, and
`{MoveForward}` with `t = 0.1` gives `(0, 2.05, 0)`. -/
theorem UpdateMovementRequest_velocity (left right forward back : Bool) (t : ℚ) :
    UpdateMovementRequest true (intentSet left right forward back) t =
      [{ x := (if right then 20.5 * t else 0) - (if left then 20.5 * t else 0),
         y := (if forward then 20.5 * t else 0) - (if back then 20.5 * t else 0),
         z := 0 }] ∧
    (∃ y, UpdateMovementRequest true (intentSet true true forward back) t
      = [{ x := 0, y := y, z := 0 }]) ∧
    (∃ x, UpdateMovementRequest true (intentSet left right true true) t
      = [{ x := x, y := 0, z := 0 }]) ∧
    UpdateMovementRequest true (intentSet false false true false) 0.1
      = [{ x := 0, y := 2.05, z := 0 }] := by
  have main : ∀ (l r f b : Bool) (t : ℚ),
      UpdateMovementRequest true (intentSet l r f b) t =
      [{ x := (if r then 20.5 * t else 0) - (if l then 20.5 * t else 0),
         y := (if f then 20.5 * t else 0) - (if b then 20.5 * t else 0),
         z := 0 }] := by
    intro l r f b t
    unfold UpdateMovementRequest
    simp only [intentSet_and_MoveLeft, intentSet_and_MoveRight, intentSet_and_MoveForward,
      intentSet_and_MoveBack, Vec3.ZERO, moveSpeed]
    cases l <;> cases r <;> cases f <;> cases b <;> norm_num
  refine ⟨main _ _ _ _ t, ?_, ?_, ?_⟩
  · refine ⟨(if forward then 20.5 * t else 0) - (if back then 20.5 * t else 0), ?_⟩
    rw [main]
    simp
  · refine ⟨(if right then 20.5 * t else 0) - (if left then 20.5 * t else 0), ?_⟩
    rw [main]
    simp
  · rw [main]
    norm_num

/-- C4: for every intent set and frame time, `UpdateMovementRequest` makes no
`AddVelocity` call at all when the controller reports the actor is not on the
ground, and exactly one when it is on the ground. -/
theorem UpdateMovementRequest_grounded_only (m_inputFlags : Nat) (frameTime : ℚ) :
    UpdateMovementRequest false m_inputFlags frameTime = [] ∧
    (UpdateMovementRequest true m_inputFlags frameTime).length = 1 := by
  constructor
  · simp [UpdateMovementRequest]
  · simp [UpdateMovementRequest]

/-- C5: for every timer value (the initial `5` included) and every frame time,
positive, zero or negative, the timer after one Update event lies in `[-1, 1]`,
and it stays in `[-1, 1]` under every later sequence of events. -/
theorem bullet_timer_in_range (b : CBulletComponent) (frameTime : ℚ)
    (later : List SEntityEvent) :
    (-1 ≤ (b.ProcessEvent (SEntityEvent.Update frameTime)).1.m_timer ∧
      (b.ProcessEvent (SEntityEvent.Update frameTime)).1.m_timer ≤ 1) ∧
    (-1 ≤ (CBulletComponent.fresh.ProcessEvent (SEntityEvent.Update frameTime)).1.m_timer ∧
      (CBulletComponent.fresh.ProcessEvent (SEntityEvent.Update frameTime)).1.m_timer ≤ 1) ∧
    (-1 ≤ ((b.ProcessEvent (SEntityEvent.Update frameTime)).1.deliver later).m_timer ∧
      ((b.ProcessEvent (SEntityEvent.Update frameTime)).1.deliver later).m_timer ≤ 1) := by
  have h1 : ∀ c : CBulletComponent,
      -1 ≤ (c.ProcessEvent (SEntityEvent.Update frameTime)).1.m_timer ∧
      (c.ProcessEvent (SEntityEvent.Update frameTime)).1.m_timer ≤ 1 := by
    intro c
    rw [ProcessEvent_Update_timer]
    exact CLAMP_bounds _
  exact ⟨h1 b, h1 _, deliver_timer_bounds later _ (h1 b)⟩

/-- C6: in every delivered sequence, the event that follows a prefix `pre` requests
removal exactly when it is a collision event and the timer is `< 0` at that moment;
an Update event never requests removal; a sequence requests removal somewhere
exactly when it has such a collision, so a bullet that receives no collision event
(Update events of any frame times included) is never removed. -/
theorem bullet_removal_iff (b : CBulletComponent) (pre : List SEntityEvent)
    (e : SEntityEvent) :
    (((b.deliver pre).ProcessEvent e).2 = true ↔
      (e = SEntityEvent.COLLISION ∧ (b.deliver pre).m_timer < 0)) ∧
    (∀ ft, ((b.deliver pre).ProcessEvent (SEntityEvent.Update ft)).2 = false) ∧
    (∀ evs : List SEntityEvent, b.removalRequested evs = true ↔
      ∃ p q, evs = p ++ SEntityEvent.COLLISION :: q ∧ (b.deliver p).m_timer < 0) ∧
    (∀ evs : List SEntityEvent, SEntityEvent.COLLISION ∉ evs →
      b.removalRequested evs = false) ∧
    (∀ fts : List ℚ, b.removalRequested (fts.map SEntityEvent.Update) = false) := by
  have hno : ∀ evs : List SEntityEvent, SEntityEvent.COLLISION ∉ evs →
      b.removalRequested evs = false := bullet_no_removal_without_collision b
  refine ⟨ProcessEvent_removal_iff _ _, ?_, fun evs => removalRequested_iff evs b, hno, ?_⟩
  · intro ft
    cases hr : ((b.deliver pre).ProcessEvent (SEntityEvent.Update ft)).2 with
    | false => rfl
    | true => exact absurd ((ProcessEvent_removal_iff _ _).1 hr).1 (by simp)
  · intro fts
    apply hno
    simp

/-- C9 (the code at the failing input): a fresh bullet that receives four Update
events of half a second each and then its first collision event. No removal is
requested during the Updates, the timer is `-1/2` when the collision arrives, and
that first collision requests removal. -/
theorem bullet_removed_at_first_collision :
    CBulletComponent.fresh.removalRequested
      (List.replicate 4 (SEntityEvent.Update (1 / 2))) = false ∧
    (CBulletComponent.fresh.deliver
      (List.replicate 4 (SEntityEvent.Update (1 / 2)))).m_timer = -1 / 2 ∧
    ((CBulletComponent.fresh.deliver
      (List.replicate 4 (SEntityEvent.Update (1 / 2)))).ProcessEvent
        SEntityEvent.COLLISION).2 = true := by
  have ht : (CBulletComponent.fresh.deliver
      (List.replicate 4 (SEntityEvent.Update (1 / 2)))).m_timer = -1 / 2 := by
    simp only [List.replicate, CBulletComponent.deliver, ProcessEvent_Update_timer,
      CBulletComponent.fresh]
    rw [float32_five_sub_half, CLAMP_of_ge (9 / 2) (by norm_num), float32_one_sub_half,
      CLAMP_of_mem (1 / 2) (by norm_num) (by norm_num), float32_half_sub_half,
      CLAMP_of_mem 0 (by norm_num) (by norm_num), float32_zero_sub_half,
      CLAMP_of_mem (-1 / 2) (by norm_num) (by norm_num)]
  refine ⟨?_, ht, ?_⟩
  · have h := (bullet_no_removal_without_collision CBulletComponent.fresh
      (List.replicate 4 (SEntityEvent.Update (1 / 2))))
    apply h
    simp [List.replicate]
  · apply (ProcessEvent_removal_iff _ _).2
    refine ⟨rfl, ?_⟩
    rw [ht]
    norm_num

/-- C10 (counterexample): `eAAM_OnHold` is neither Press nor Release, and under the
Hold policy it turns the empty intent set into `{MoveLeft}`. So it is not true that
every mode other than Press and Release leaves the intent set unchanged under
every policy. -/
theorem HandleInputFlagChange_hold_other_mode_sets :
    eAAM_OnHold ≠ eAAM_OnPress ∧ eAAM_OnHold ≠ eAAM_OnRelease ∧
    HandleInputFlagChange 0 EInputFlag.MoveLeft eAAM_OnHold EInputFlagType.Hold = 1 ∧
    ¬ ∀ (I F : Nat) (m : Int) (type : EInputFlagType),
      m ≠ eAAM_OnPress → m ≠ eAAM_OnRelease → HandleInputFlagChange I F m type = I := by
  refine ⟨by decide, by decide, by decide, ?_⟩
  intro h
  have h1 := h 0 EInputFlag.MoveLeft eAAM_OnHold EInputFlagType.Hold (by decide) (by decide)
  revert h1
  decide

/-- C10 (amended): for every intent set `I`, flag set `F` and activation mode that
is neither Press nor Release, `HandleInputFlagChange` leaves the intent set
unchanged under the Toggle policy; under the Hold policy it sets the bits of `F`
(the result is `I ||| F`), so the set is unchanged exactly when every bit of `F`
is already set in `I`. -/
theorem HandleInputFlagChange_other_mode (I F : Nat) (m : Int)
    (_hp : m ≠ eAAM_OnPress) (hr : m ≠ eAAM_OnRelease) :
    HandleInputFlagChange I F m EInputFlagType.Toggle = I ∧
    HandleInputFlagChange I F m EInputFlagType.Hold = I ||| F ∧
    (HandleInputFlagChange I F m EInputFlagType.Hold = I ↔
      ∀ i, F.testBit i = true → I.testBit i = true) := by
  have hT : HandleInputFlagChange I F m EInputFlagType.Toggle = I := by
    unfold HandleInputFlagChange
    simp only [hr, if_false]
  have hH : HandleInputFlagChange I F m EInputFlagType.Hold = I ||| F := by
    unfold HandleInputFlagChange
    simp only [hr, if_false]
  refine ⟨hT, hH, ?_⟩
  rw [hH]
  constructor
  · intro h i hFi
    have := congrArg (fun x => Nat.testBit x i) h
    simp only [Nat.testBit_or, hFi, Bool.or_true] at this
    exact this.symm
  · intro h
    apply Nat.eq_of_testBit_eq
    intro i
    rw [Nat.testBit_or]
    cases hFi : F.testBit i with
    | false => simp
    | true => simp [h i hFi]

/-- Witness for C10 (amended): the mode `eAAM_OnHold` applied to `MoveLeft` on the
intent set `{MoveForward}`. -/
theorem HandleInputFlagChange_other_mode_witness :
    HandleInputFlagChange 4 1 eAAM_OnHold EInputFlagType.Toggle = 4 ∧
    HandleInputFlagChange 4 1 eAAM_OnHold EInputFlagType.Hold = 4 ||| 1 ∧
    (HandleInputFlagChange 4 1 eAAM_OnHold EInputFlagType.Hold = 4 ↔
      ∀ i, Nat.testBit 1 i = true → Nat.testBit 4 i = true) :=
  HandleInputFlagChange_other_mode 4 1 eAAM_OnHold (by decide) (by decide)

/-- C11: for every pointer position (engine state) and every prior cursor state,
`UpdateCursor` overwrites the stored cursor point, whatever it was before: when
the ray cast misses, the stored point becomes the origin and the marker is left
as it was; when the ray cast hits at `p`, the stored point becomes `p` and the
marker, if present, gets position `p`, identity rotation and its previous scale. -/
theorem UpdateCursor_overwrites (gEnv : Engine) (prior : Vec3) (marker : Option IEntity) :
    (cursorRayHit gEnv = none →
      UpdateCursor gEnv prior marker = (Vec3.ZERO, marker)) ∧
    (∀ p, cursorRayHit gEnv = some p →
      (UpdateCursor gEnv prior marker).1 = p ∧
      (UpdateCursor gEnv prior marker).2 =
        marker.map (fun cursor =>
          ({ pos := p, rot := Quat.IDENTITY, scale := cursor.scale } : IEntity))) ∧
    (∀ other : Vec3, UpdateCursor gEnv other marker = UpdateCursor gEnv prior marker) := by
  refine ⟨?_, ?_, ?_⟩
  · intro h
    unfold cursorRayHit at h
    simp only [UpdateCursor, h]
  · intro p h
    unfold cursorRayHit at h
    cases marker with
    | none => simp [UpdateCursor, h]
    | some cursor => simp [UpdateCursor, h, IEntity.SetPosRotScale]
  · intro other
    rfl

/-- C12 (the code at the failing input): an actor of scale `(2, 2, 2)` with a
cursor marker present. When the controller is walking, `UpdateAnimation` writes
position `P` unchanged but scale `(1, 1, 1)`, so the actor's scale is not kept;
when it is not walking, position and scale are left untouched. In both cases the
rotation is the yaw rotation towards the marker. -/
theorem UpdateAnimation_walking_resets_scale (gEnv : Engine) (cursor : IEntity)
    (P : Vec3) (r : Quat) :
    (UpdateAnimation gEnv true (some cursor)
      { pos := P, rot := r, scale := { x := 2, y := 2, z := 2 } }).1
      = { pos := P, rot := yawRotation gEnv cursor.pos P,
          scale := { x := 1, y := 1, z := 1 } } ∧
    (UpdateAnimation gEnv true (some cursor)
      { pos := P, rot := r, scale := { x := 2, y := 2, z := 2 } }).1.scale
      ≠ { x := 2, y := 2, z := 2 } ∧
    (UpdateAnimation gEnv false (some cursor)
      { pos := P, rot := r, scale := { x := 2, y := 2, z := 2 } }).1
      = { pos := P, rot := yawRotation gEnv cursor.pos P,
          scale := { x := 2, y := 2, z := 2 } } := by
  refine ⟨rfl, ?_, rfl⟩
  show ({ x := 1, y := 1, z := 1 } : Vec3) ≠ { x := 2, y := 2, z := 2 }
  decide

/-- C13: for every activation mode and every state of the rig, the shoot callback
makes a spawn request exactly when the mode is Press, the character instance
exists and its "barrel_out" attachment exists. With mode Release, with no
character or with the attachment absent nothing is spawned; when it spawns, it
makes one request whose position and rotation are the attachment's and whose
scale is uniform `0.05`, and a bullet component is created iff the engine returns
an entity. -/
theorem shootAction_spawns_iff (activationMode : Int)
    (GetCharacter : Option ICharacterInstance) (SpawnEntity : SEntitySpawnParams → Bool) :
    ((shootAction activationMode GetCharacter SpawnEntity).1 ≠ [] ↔
      (activationMode = eAAM_OnPress ∧
        ∃ pCharacter, GetCharacter = some pCharacter ∧
          ∃ att, pCharacter.GetInterfaceByName "barrel_out" = some att)) ∧
    (∀ pCharacter att, activationMode = eAAM_OnPress → GetCharacter = some pCharacter →
      pCharacter.GetInterfaceByName "barrel_out" = some att →
      shootAction activationMode GetCharacter SpawnEntity =
        ([{ vPosition := att.GetAttWorldAbsolute.t,
            qRotation := att.GetAttWorldAbsolute.q,
            vScale := { x := 0.05, y := 0.05, z := 0.05 } }],
         SpawnEntity { vPosition := att.GetAttWorldAbsolute.t,
                       qRotation := att.GetAttWorldAbsolute.q,
                       vScale := { x := 0.05, y := 0.05, z := 0.05 } })) ∧
    shootAction eAAM_OnRelease GetCharacter SpawnEntity = ([], false) ∧
    shootAction activationMode none SpawnEntity = ([], false) ∧
    (∀ pCharacter, pCharacter.GetInterfaceByName "barrel_out" = none →
      shootAction activationMode (some pCharacter) SpawnEntity = ([], false)) := by
  have hscale : bulletScale = 0.05 := by
    unfold bulletScale
    norm_num
  refine ⟨?_, ?_, ?_, ?_, ?_⟩
  · unfold shootAction
    by_cases hm : activationMode = eAAM_OnPress
    · cases GetCharacter with
      | none => simp [hm]
      | some pCharacter =>
        cases hatt : pCharacter.GetInterfaceByName "barrel_out" with
        | none => simp [hm, hatt]
        | some att => simp [hm, hatt]
    · simp [hm]
  · intro pCharacter att hm hc hatt
    unfold shootAction
    simp only [hm, hc, hatt, if_true, hscale]
  · have hrp : eAAM_OnRelease ≠ eAAM_OnPress := by decide
    unfold shootAction
    simp only [hrp, if_false]
  · unfold shootAction
    by_cases hm : activationMode = eAAM_OnPress
    · simp only [hm, if_true]
    · simp only [hm, if_false]
  · intro pCharacter hatt
    unfold shootAction
    by_cases hm : activationMode = eAAM_OnPress
    · simp only [hm, if_true, hatt]
    · simp only [hm, if_false]

end TopDownTemplate
